import Mathlib

/-!
Verification development for the phone-automation agent
(`phone_agent`: action parser, action executor, step engine and run loop).

The Python sources are shallowly embedded:

* pure string manipulation is embedded over `List Char` / `String`;
* `eval(response, \x7b"__builtins__": None\x7d, \x7b"do": do, "finish": finish\x7d)`
  in `parse_action` (actions/handler.py) is embedded as an expression
  fragment `PyExpr` with a small-step-free evaluator `pyEvalF` that records
  every invoked callable in a trace; the fragment covers the constructs a
  model response can reach through this entry point (string / integer /
  list / dict literals, names, keyword-argument calls, zero-argument
  lambdas, parentheses); escapes in string literals, single-quoted strings,
  lambdas with parameters and operators are outside the fragment and are
  mapped to a parse failure; name resolution is scope-correct: at the top
  level CPython looks names up in the locals mapping (`do`, `finish`),
  while inside a lambda body free names compile to global lookups that see
  only `\x7b"__builtins__": None\x7d` and therefore raise;
* CPython's recursion and size limits are modelled by a fuel parameter;
* IEEE-754 binary64 arithmetic in the coordinate conversion is modelled
  exactly: a float is a dyadic pair (significand, exponent) and each
  operation (int-to-float conversion, division, multiplication) rounds to
  53 significant bits, nearest-ties-to-even, as the hardware does for all
  values in the normal range — which covers every value
  `int(ratio / 1000.0 * dim)` can meet for the magnitudes at hand;
* device primitives (adb calls) are modelled by an oracle that fixes the
  current input method, the launch-success predicate, and which primitive
  invocations raise; every primitive invocation is recorded in a trace;
* `time.sleep` calls are modelled as no-ops.
-/

namespace PhoneAgent

/-! ## Basic Python string helpers -/

/-- Whitespace characters recognised by Python `str.strip` and by `\s` in
the `re` module: space, tab, newline, carriage return, vertical tab,
form feed. -/
def isWsCh (c : Char) : Bool :=
  c = ' ' || c = '\t' || c = '\n' || c = '\r' || c = '\x0b' || c = '\x0c'

/-- Python `str.strip()` on a character list. -/
def stripChars (l : List Char) : List Char :=
  ((l.dropWhile isWsCh).reverse.dropWhile isWsCh).reverse

/-- Python `str.strip()`. -/
def pyStrip (s : String) : String := String.mk (stripChars s.data)

/-- Python substring test `pat in s` on character lists. -/
def containsSub (pat : List Char) : List Char → Bool
  | [] => pat.isPrefixOf []
  | c :: cs => pat.isPrefixOf (c :: cs) || containsSub pat cs

/-- Python substring test `pat in s` on strings. -/
def strContains (s pat : String) : Bool := containsSub pat.data s.data

def isDigitCh (c : Char) : Bool := '0' ≤ c && c ≤ '9'

def isIdentStartCh (c : Char) : Bool := c.isAlpha || c = '_'

def isIdentCh (c : Char) : Bool := isIdentStartCh c || isDigitCh c

/-- Numeric value of a list of decimal digit characters. -/
def natOfDigits (l : List Char) : Nat :=
  l.foldl (fun n c => 10 * n + (c.toNat - 48)) 0

/-- Maximal runs of decimal digits, in order of occurrence: models
`re.findall(r"\d+", s)` followed by `int(...)` on each match. -/
def digitRuns : List Char → List Nat
  | [] => []
  | c :: cs =>
    if isDigitCh c then
      natOfDigits (List.takeWhile isDigitCh (c :: cs)) ::
        digitRuns (List.dropWhile isDigitCh cs)
    else digitRuns cs
termination_by l => l.length
decreasing_by
  · exact Nat.lt_succ_of_le (List.dropWhile_suffix isDigitCh).length_le
  · exact Nat.lt_succ_self cs.length

/-! ## The Python expression fragment evaluated by `parse_action`

`actions/handler.py` evaluates the model's action text with
`eval(response, \x7b"__builtins__": None\x7d, \x7b"do": do, "finish": finish\x7d)`:
a general-purpose expression evaluator whose global namespace merely lacks
builtins.  `PyExpr` is the fragment of Python's expression grammar embedded
here, and `pyEvalF` mirrors CPython's evaluation of that fragment, recording
each invoked callable. -/

inductive PyExpr where
  | strLit (s : String)
  | intLit (n : Int)
  | listLit (es : List PyExpr)
  | dictLit (kvs : List (String × PyExpr))
  | name (x : String)
  | callKw (f : PyExpr) (args : List (String × PyExpr))
  | lambda0 (body : PyExpr)

/-- Python runtime values reachable through `parse_action`'s `eval`. -/
inductive PyVal where
  | none
  | str (s : String)
  | int (n : Int)
  | list (xs : List PyVal)
  | dict (entries : List (String × PyVal))
  | builtin (b : String)
  | closure (body : PyExpr)

/-- Python truthiness (`if not x`) for the values above. -/
def pyTruthy : PyVal → Bool
  | .none => false
  | .str s => !(s == "")
  | .int n => !(n == 0)
  | .list xs => !xs.isEmpty
  | .dict d => !d.isEmpty
  | .builtin _ => true
  | .closure _ => true

/-- Embeds `dict.get(k)`: the value stored under `k`. -/
def dictGet (d : List (String × PyVal)) (k : String) : Option PyVal :=
  (d.find? (fun p => p.1 = k)).map (fun p => p.2)

/-- Embeds `k in dict`. -/
def dictHasKey (d : List (String × PyVal)) (k : String) : Bool :=
  d.any (fun p => p.1 = k)

/-- Embeds `dict[k]` when the key is known to be present (`None` otherwise,
unreachable in the embedded uses). -/
def dictGetD (d : List (String × PyVal)) (k : String) : PyVal :=
  match dictGet d k with
  | some v => v
  | Option.none => PyVal.none

/-- Embeds `dict[k] = v`: replace in place or append, preserving insertion order. -/
def dictSet (d : List (String × PyVal)) (k : String) (v : PyVal) :
    List (String × PyVal) :=
  if d.any (fun p => p.1 = k) then
    d.map (fun p => if p.1 = k then (k, v) else p)
  else d ++ [(k, v)]

/-- Python `str(x)` as used in the executor's diagnostic f-strings.
Container and function rendering is abbreviated; no claim inspects those
renderings. -/
def pyShow : PyVal → String
  | .none => "None"
  | .str s => s
  | .int n => toString n
  | .list _ => "[...]"
  | .dict _ => "\x7b...\x7d"
  | .builtin b => b
  | .closure _ => "<lambda>"

def pyShowOpt : Option PyVal → String
  | some v => pyShow v
  | Option.none => "None"

/-! ### Lexer for the fragment -/

inductive Tok where
  | lpar | rpar | lbrk | rbrk | lbrc | rbrc
  | comma | colon | eqTok
  | ident (s : String)
  | intTok (n : Int)
  | strTok (s : String)
  deriving DecidableEq

/-- Read a double-quoted string body up to the closing quote. -/
def lexStrAux : List Char → Option (List Char × List Char)
  | [] => Option.none
  | c :: cs =>
    if c = '"' then some ([], cs)
    else (lexStrAux cs).map (fun p => (c :: p.1, p.2))

/-- Tokenizer for the embedded expression fragment.  Characters outside the
fragment (operators, single quotes, backslashes, ...) yield `none`, which
`parse_action` treats as the `SyntaxError` branch of `eval`. -/
def pyLex : Nat → List Char → Option (List Tok)
  | 0, _ => Option.none
  | _ + 1, [] => some []
  | fuel + 1, c :: cs =>
    if isWsCh c then pyLex fuel cs
    else if c = '(' then (pyLex fuel cs).map (Tok.lpar :: ·)
    else if c = ')' then (pyLex fuel cs).map (Tok.rpar :: ·)
    else if c = '[' then (pyLex fuel cs).map (Tok.lbrk :: ·)
    else if c = ']' then (pyLex fuel cs).map (Tok.rbrk :: ·)
    else if c = '\x7b' then (pyLex fuel cs).map (Tok.lbrc :: ·)
    else if c = '\x7d' then (pyLex fuel cs).map (Tok.rbrc :: ·)
    else if c = ',' then (pyLex fuel cs).map (Tok.comma :: ·)
    else if c = ':' then (pyLex fuel cs).map (Tok.colon :: ·)
    else if c = '=' then (pyLex fuel cs).map (Tok.eqTok :: ·)
    else if c = '"' then
      match lexStrAux cs with
      | some (content, rest) =>
        (pyLex fuel rest).map (Tok.strTok (String.mk content) :: ·)
      | Option.none => Option.none
    else if isDigitCh c then
      (pyLex fuel (List.dropWhile isDigitCh (c :: cs))).map
        (Tok.intTok (Int.ofNat (natOfDigits (List.takeWhile isDigitCh (c :: cs)))) :: ·)
    else if c = '-' then
      match cs with
      | d :: _ =>
        if isDigitCh d then
          (pyLex fuel (List.dropWhile isDigitCh cs)).map
            (Tok.intTok (-(Int.ofNat (natOfDigits (List.takeWhile isDigitCh cs)))) :: ·)
        else Option.none
      | [] => Option.none
    else if isIdentStartCh c then
      (pyLex fuel (List.dropWhile isIdentCh (c :: cs))).map
        (Tok.ident (String.mk (List.takeWhile isIdentCh (c :: cs))) :: ·)
    else Option.none

/-- Duplicate keyword-argument names (a `SyntaxError` in CPython). -/
def hasDupStr : List String → Bool
  | [] => false
  | s :: r => r.contains s || hasDupStr r

mutual

/-- Expression = atom followed by call trailers. -/
def parseExpr : Nat → List Tok → Option (PyExpr × List Tok)
  | 0, _ => Option.none
  | fuel + 1, ts =>
    match parseAtom fuel ts with
    | some (a, ts1) => parseTrailers fuel a ts1
    | Option.none => Option.none

def parseAtom : Nat → List Tok → Option (PyExpr × List Tok)
  | 0, _ => Option.none
  | fuel + 1, ts =>
    match ts with
    | Tok.strTok s :: r => some (.strLit s, r)
    | Tok.intTok n :: r => some (.intLit n, r)
    | Tok.ident x :: r =>
      if x = "lambda" then
        match r with
        | Tok.colon :: r2 => (parseExpr fuel r2).map (fun p => (.lambda0 p.1, p.2))
        | _ => Option.none
      else some (.name x, r)
    | Tok.lpar :: r =>
      match parseExpr fuel r with
      | some (e, Tok.rpar :: r2) => some (e, r2)
      | _ => Option.none
    | Tok.lbrk :: Tok.rbrk :: r2 => some (.listLit [], r2)
    | Tok.lbrk :: r =>
      match parseElems fuel r with
      | some (es, Tok.rbrk :: r2) => some (.listLit es, r2)
      | _ => Option.none
    | Tok.lbrc :: Tok.rbrc :: r2 => some (.dictLit [], r2)
    | Tok.lbrc :: r =>
      match parseEntries fuel r with
      | some (kvs, Tok.rbrc :: r2) => some (.dictLit kvs, r2)
      | _ => Option.none
    | _ => Option.none

def parseTrailers : Nat → PyExpr → List Tok → Option (PyExpr × List Tok)
  | 0, _, _ => Option.none
  | fuel + 1, a, ts =>
    match ts with
    | Tok.lpar :: Tok.rpar :: r2 => parseTrailers fuel (.callKw a []) r2
    | Tok.lpar :: r =>
      match parseKwargs fuel r with
      | some (args, Tok.rpar :: r2) =>
        if hasDupStr (args.map Prod.fst) then Option.none
        else parseTrailers fuel (.callKw a args) r2
      | _ => Option.none
    | _ => some (a, ts)

def parseElems : Nat → List Tok → Option (List PyExpr × List Tok)
  | 0, _ => Option.none
  | fuel + 1, ts =>
    match parseExpr fuel ts with
    | some (e, Tok.comma :: r) =>
      (parseElems fuel r).map (fun p => (e :: p.1, p.2))
    | some (e, r) => some ([e], r)
    | Option.none => Option.none

def parseKwargs : Nat → List Tok → Option (List (String × PyExpr) × List Tok)
  | 0, _ => Option.none
  | fuel + 1, ts =>
    match ts with
    | Tok.ident k :: Tok.eqTok :: r =>
      match parseExpr fuel r with
      | some (v, Tok.comma :: r2) =>
        (parseKwargs fuel r2).map (fun p => ((k, v) :: p.1, p.2))
      | some (v, r2) => some ([(k, v)], r2)
      | Option.none => Option.none
    | _ => Option.none

def parseEntries : Nat → List Tok → Option (List (String × PyExpr) × List Tok)
  | 0, _ => Option.none
  | fuel + 1, ts =>
    match ts with
    | Tok.strTok k :: Tok.colon :: r =>
      match parseExpr fuel r with
      | some (v, Tok.comma :: r2) =>
        (parseEntries fuel r2).map (fun p => ((k, v) :: p.1, p.2))
      | some (v, r2) => some ([(k, v)], r2)
      | Option.none => Option.none
    | _ => Option.none

end

/-- Parse a complete expression (CPython `eval` requires the whole source
to be one expression). -/
def pyParse (s : String) : Option PyExpr :=
  match pyLex (s.data.length + 1) s.data with
  | Option.none => Option.none
  | some ts =>
    match parseExpr (ts.length * 4 + 10) ts with
    | some (e, []) => some e
    | _ => Option.none

/-! ### Evaluator with a trace of invoked callables -/

/-- One callable invocation performed during evaluation: either one of the
two helper builtins installed in the local namespace, or a user-supplied
function object (here: a lambda). -/
inductive CallEvent where
  | builtinCall (b : String)
  | closureCall
  deriving DecidableEq

mutual

/-- Evaluation of the fragment, mirroring CPython's `eval` with globals
`\x7b"__builtins__": None\x7d` and locals `\x7b"do": do, "finish": finish\x7d`.
Returns the value together with the list of callable invocations performed,
in evaluation order; `error` models a raised exception.  The fuel models
CPython's recursion/resource limits.  The Bool argument is the scope:
`false` at the top level of the `eval` source, where CPython emits
`LOAD_NAME` and finds `do`/`finish` in the locals mapping; `true` inside a
lambda body, where free names compile to `LOAD_GLOBAL` and see only the
globals `\x7b"__builtins__": None\x7d`, so any other name raises (the
builtins slot is `None`, not a module). -/
def pyEvalF : Bool → Nat → PyExpr → Except String (PyVal × List CallEvent)
  | _, 0, _ => .error "recursion limit exceeded"
  | fn, fuel + 1, e =>
    match e with
    | .strLit s => .ok (.str s, [])
    | .intLit n => .ok (.int n, [])
    | .listLit es => do
      let (vs, evs) ← pyEvalList fn fuel es
      return (.list vs, evs)
    | .dictLit kvs => do
      let (pairs, evs) ← pyEvalKw fn fuel kvs
      return (.dict (pairs.foldl (fun d p => dictSet d p.1 p.2) []), evs)
    | .name x =>
      if x = "__builtins__" then .ok (.none, [])
      else if fn then .error "NoneType object is not subscriptable"
      else if x = "do" then .ok (.builtin "do", [])
      else if x = "finish" then .ok (.builtin "finish", [])
      else .error ("name " ++ x ++ " is not defined")
    | .lambda0 body => .ok (.closure body, [])
    | .callKw f args => do
      let (fv, ev1) ← pyEvalF fn fuel f
      let (argPairs, ev2) ← pyEvalKw fn fuel args
      match fv with
      | .builtin b =>
        .ok (.dict (dictSet argPairs "_metadata" (.str b)),
             ev1 ++ ev2 ++ [CallEvent.builtinCall b])
      | .closure body =>
        match argPairs with
        | [] => do
          let (v, ev3) ← pyEvalF true fuel body
          return (v, ev1 ++ ev2 ++ [CallEvent.closureCall] ++ ev3)
        | _ :: _ => .error "unexpected keyword argument"
      | _ => .error "object is not callable"

def pyEvalList : Bool → Nat → List PyExpr → Except String (List PyVal × List CallEvent)
  | _, 0, _ => .error "recursion limit exceeded"
  | _, _ + 1, [] => .ok ([], [])
  | fn, fuel + 1, e :: es => do
    let (v, ev1) ← pyEvalF fn fuel e
    let (vs, ev2) ← pyEvalList fn fuel es
    return (v :: vs, ev1 ++ ev2)

def pyEvalKw : Bool → Nat → List (String × PyExpr) →
    Except String (List (String × PyVal) × List CallEvent)
  | _, 0, _ => .error "recursion limit exceeded"
  | _, _ + 1, [] => .ok ([], [])
  | fn, fuel + 1, (k, e) :: rest => do
    let (v, ev1) ← pyEvalF fn fuel e
    let (pairs, ev2) ← pyEvalKw fn fuel rest
    return ((k, v) :: pairs, ev1 ++ ev2)

end

/-- Resource bound for evaluation, standing in for CPython's recursion and
memory limits; far above anything an action expression needs. -/
def evalFuel : Nat := 1000000

/-- The `try` body of `parse_action`: strip, `eval`, then require a `dict`
containing the key `"_metadata"`.  Any other outcome is the raised
exception captured by the `except` clause. -/
def evalAttempt (s : String) : Except String (List (String × PyVal)) :=
  match pyParse s with
  | Option.none => .error "invalid syntax"
  | some e =>
    match pyEvalF false evalFuel e with
    | .error m => .error m
    | .ok (v, _) =>
      match v with
      | .dict d =>
        if dictHasKey d "_metadata" then .ok d else .error "Result is not a dict"
      | _ => .error "Result is not a dict"

/-- The callable-invocation trace produced while evaluating a response
string (up to the point where `parse_action` inspects the value). -/
def evalCallTrace (s : String) : Option (List CallEvent) :=
  match pyParse (pyStrip s) with
  | Option.none => Option.none
  | some e =>
    match pyEvalF false evalFuel e with
    | .ok (_, tr) => some tr
    | .error _ => Option.none

/-- Embeds `parse_action` (actions/handler.py): evaluate the stripped response;
on any exception fall back to a synthesized finish action when the literal
word "finish" occurs in the (stripped) response, otherwise re-raise
`ValueError`. -/
def parse_action (response : String) : Except String (List (String × PyVal)) :=
  let r := pyStrip response
  match evalAttempt r with
  | .ok d => .ok d
  | .error e =>
    if strContains r "finish" then
      .ok [("_metadata", .str "finish"), ("message", .str "Task Completed")]
    else .error ("Parse failed: " ++ e)

/-! ## Action extraction from raw model content

`ModelClient._parse_response` (model/client.py) extracts the action
expression from the raw completion: strip the box-delimiter tokens, search
for the first (leftmost) substring matching the regular expression
`(do|finish)\s*\(.*?\)` (non-greedy, DOTALL), and fall back to
`<answer>`-splitting and plain `do(` / `finish(` suffix extraction. -/

/-- Python `s.replace(pat, repl)`: left-to-right, non-overlapping; the
first argument is fuel (`s.length + 1` at the call site). -/
def replaceAllW (pat repl : List Char) : Nat → List Char → List Char
  | 0, _ => []
  | _ + 1, [] => []
  | fuel + 1, c :: cs =>
    if pat.isPrefixOf (c :: cs) && !pat.isEmpty then
      repl ++ replaceAllW pat repl fuel (List.drop pat.length (c :: cs))
    else c :: replaceAllW pat repl fuel cs

/-- Python `s.replace(pat, repl)` on strings. -/
def pyReplace (s pat repl : String) : String :=
  String.mk (replaceAllW pat.data repl.data (s.data.length + 1) s.data)

/-- Try one branch of the alternation `(do|finish)\s*\(.*?\)` at the
current position: keyword, greedy whitespace, `(`, then the shortest run
ending at the first `)`. -/
def spanUntilClose : List Char → Option (List Char)
  | [] => Option.none
  | c :: cs => if c = ')' then some [c] else (spanUntilClose cs).map (c :: ·)

def tryKw (kw : List Char) (s : List Char) : Option (List Char) :=
  if kw.isPrefixOf s then
    let rest := List.drop kw.length s
    match rest.dropWhile isWsCh with
    | '(' :: r3 =>
      (spanUntilClose r3).map (fun inner => kw ++ rest.takeWhile isWsCh ++ '(' :: inner)
    | _ => Option.none
  else Option.none

/-- The regex branch order at one position: `do` first, then `finish`. -/
def matchActionAt (s : List Char) : Option (List Char) :=
  match tryKw "do".data s with
  | some m => some m
  | Option.none => tryKw "finish".data s

/-- Embeds `re.search`: leftmost position whose match attempt succeeds. -/
def reSearchAction : List Char → Option (List Char)
  | [] => Option.none
  | c :: cs =>
    match matchActionAt (c :: cs) with
    | some m => some m
    | Option.none => reSearchAction cs

/-- Suffix of `s` beginning at the first occurrence of `pat`
(`s[s.find(pat):]`). -/
def subFrom (pat : List Char) : List Char → Option (List Char)
  | [] => Option.none
  | c :: cs => if pat.isPrefixOf (c :: cs) then some (c :: cs) else subFrom pat cs

/-- Remainder after the first occurrence of `pat`
(`s.split(pat, 1)[1]`). -/
def afterSub (pat : List Char) : List Char → Option (List Char)
  | [] => Option.none
  | c :: cs =>
    if pat.isPrefixOf (c :: cs) then some (List.drop pat.length (c :: cs))
    else afterSub pat cs

/-- The action-extraction part of `ModelClient._parse_response`
(model/client.py, lines 167-199); the thinking-extraction part is
independent of every claim and is not embedded. -/
def extractAction (content : String) : String :=
  let clean := pyReplace (pyReplace content "<|begin_of_box|>" "") "<|end_of_box|>" ""
  match reSearchAction clean.data with
  | some m => pyStrip (pyReplace (String.mk m) "\n" " ")
  | Option.none =>
    if strContains content "<answer>" then
      match afterSub "<answer>".data content.data with
      | some rest => pyStrip (pyReplace (String.mk rest) "</answer>" "")
      | Option.none => pyStrip clean
    else if strContains clean "do(" || strContains clean "finish(" then
      match subFrom "do(".data clean.data with
      | some rest => pyStrip (String.mk rest)
      | Option.none =>
        match subFrom "finish(".data clean.data with
        | some rest => pyStrip (String.mk rest)
        | Option.none => ""
    else pyStrip clean

/-! ## Coordinate conversion

`ActionHandler._convert_relative_to_absolute` (actions/handler.py).  The
device computation `int(x_ratio / 1000.0 * screen_width)` runs in IEEE-754
binary64: `float(x)` rounds the integer to the nearest double, `/` and `*`
each round their exact result to the nearest double (ties to even), and
`int()` truncates toward zero.  Here a double is represented exactly as a
dyadic pair `(significand, exponent)` with value `m * 2 ^ e`, and each
operation re-rounds to 53 significant bits exactly as the hardware does
for every value in the normal range (no overflow, underflow or NaN can
arise from the magnitudes this computation meets). -/

/-- Python `int()` on an exact rational: truncation toward zero (used for
the exact-arithmetic comparison alongside the binary64 pipeline). -/
def pyInt (q : ℚ) : Int := if 0 ≤ q then ⌊q⌋ else ⌈q⌉

/-- Fuel-driven floor of the base-2 logarithm (the fuel is the number
itself at every call site, which always suffices). -/
def log2F : Nat → Nat → Nat
  | 0, _ => 0
  | fuel + 1, n => if 2 ≤ n then log2F fuel (n / 2) + 1 else 0

/-- Floor of the base-2 logarithm of a positive natural. -/
def natLog2 (n : Nat) : Nat := log2F n n

/-- Whether `2 ^ k ≤ a / b` for positive naturals `a`, `b` and an integer
exponent `k`. -/
def geQPow (a b : Nat) (k : Int) : Bool :=
  if 0 ≤ k then b * 2 ^ k.toNat ≤ a else b ≤ a * 2 ^ (-k).toNat

/-- Floor of the base-2 logarithm of the positive rational `a / b`. -/
def flog2Q (a b : Nat) : Int :=
  let k : Int := (natLog2 a : Int) - (natLog2 b : Int)
  if geQPow a b k then k else k - 1

/-- Round `a / b` (with `b` positive) to the nearest integer, ties to
even. -/
def rneNatDiv (a b : Nat) : Nat :=
  let q := a / b
  let r := a % b
  if 2 * r < b then q
  else if b < 2 * r then q + 1
  else if q % 2 = 0 then q else q + 1

/-- Round the nonnegative value `(a / b) * 2 ^ e` to the binary64 grid
(53 significant bits, nearest, ties to even): the result is a
`(significand, exponent)` pair denoting `m * 2 ^ e2`.  Exact for every
value in the normal range of binary64. -/
def roundQ53 (a b : Nat) (e : Int) : Nat × Int :=
  if a = 0 then (0, 0)
  else
    let sh := flog2Q a b - 52
    let m :=
      if 0 ≤ sh then rneNatDiv a (b * 2 ^ sh.toNat)
      else rneNatDiv (a * 2 ^ (-sh).toNat) b
    (m, e + sh)

/-- A binary64 value, exactly: `significand * 2 ^ exponent`. -/
abbrev F64 := Int × Int

/-- Reapply the sign of `s` to the magnitude `m`. -/
def signApply (s : Int) (m : Nat) : Int := if s < 0 then -(m : Int) else (m : Int)

/-- CPython `float(n)` on an `int`: round to the nearest binary64. -/
def f64OfInt (n : Int) : F64 :=
  let p := roundQ53 n.natAbs 1 0
  (signApply n p.1, p.2)

/-- binary64 division, rounded to nearest, ties to even (the zero-divisor
branch models `ZeroDivisionError` only formally: the sole divisor on the
embedded path is the literal `1000.0`). -/
def f64Div (x y : F64) : F64 :=
  if y.1 = 0 then (0, 0)
  else
    let p := roundQ53 x.1.natAbs y.1.natAbs (x.2 - y.2)
    (signApply (x.1 * y.1) p.1, p.2)

/-- binary64 multiplication, rounded to nearest, ties to even. -/
def f64Mul (x y : F64) : F64 :=
  let p := roundQ53 (x.1 * y.1).natAbs 1 (x.2 + y.2)
  (signApply (x.1 * y.1) p.1, p.2)

/-- Python `int()` on a binary64: truncation toward zero. -/
def f64Trunc (x : F64) : Int :=
  if 0 ≤ x.2 then x.1 * 2 ^ x.2.toNat
  else signApply x.1 (x.1.natAbs / 2 ^ (-x.2).toNat)

/-- One axis of the conversion as the code computes it:
`int(ratio / 1000.0 * dim)` in binary64, on an already-converted float
ratio. -/
def codePixel (ratio : F64) (dim : Int) : Int :=
  f64Trunc (f64Mul (f64Div ratio (f64OfInt 1000)) (f64OfInt dim))

/-- Python `float(s)` for the strings that reach the conversion; the
fragment covers optionally negated decimal digit strings (surrounding
whitespace ignored as `float` does); the value, an integer, is rounded to
the nearest binary64 exactly as `float` rounds it. -/
def strToF64 (s : String) : Option F64 :=
  match stripChars s.data with
  | '-' :: rest =>
    if rest.all isDigitCh && !rest.isEmpty then
      some (f64OfInt (-(Int.ofNat (natOfDigits rest))))
    else Option.none
  | l =>
    if l.all isDigitCh && !l.isEmpty then
      some (f64OfInt (Int.ofNat (natOfDigits l)))
    else Option.none

/-- Python `float(x)` on the values that can appear as a coordinate
component (`TypeError` / `ValueError` otherwise). -/
def pyFloat : PyVal → Option F64
  | .int n => some (f64OfInt n)
  | .str s => strToF64 s
  | _ => Option.none

/-- Embeds the `ast.literal_eval` validation: a parsed expression is accepted only if
it is built from literals. The fuel is structural depth. -/
def exprAsLiteral : Nat → PyExpr → Option PyVal
  | 0, _ => Option.none
  | fuel + 1, e =>
    match e with
    | .strLit s => some (.str s)
    | .intLit n => some (.int n)
    | .listLit es =>
      (es.mapM (exprAsLiteral fuel)).map .list
    | .dictLit kvs =>
      (kvs.mapM (fun p => (exprAsLiteral fuel p.2).map ((p.1, ·)))).map
        (fun pairs => .dict (pairs.foldl (fun d q => dictSet d q.1 q.2) []))
    | _ => Option.none

/-- Embeds `ast.literal_eval` on a string: parse, then accept literals only. -/
def litEvalStr (s : String) : Option PyVal :=
  match pyParse s with
  | some e => exprAsLiteral evalFuel e
  | Option.none => Option.none

/-- Embeds `ActionHandler._convert_relative_to_absolute`: robust string
normalization, shape check, then `int(ratio / 1000.0 * dimension)` per
axis; `error` models the raised `ValueError`/`TypeError`. -/
def _convert_relative_to_absolute (element : PyVal) (w h : Int) :
    Except String (Int × Int) :=
  let el : PyVal :=
    match element with
    | .str s0 =>
      let s := pyStrip s0
      match litEvalStr s with
      | some v => v
      | Option.none =>
        match digitRuns s.data with
        | a :: b :: _ => .list [.int (Int.ofNat a), .int (Int.ofNat b)]
        | _ => .str s
    | v => v
  match el with
  | .list (x0 :: x1 :: _) =>
    match pyFloat x0, pyFloat x1 with
    | some xr, some yr =>
      .ok (f64Trunc (f64Mul (f64Div xr (f64OfInt 1000)) (f64OfInt w)),
           f64Trunc (f64Mul (f64Div yr (f64OfInt 1000)) (f64OfInt h)))
    | _, _ => .error "could not convert to float"
  | other => .error ("Invalid element format: " ++ pyShow other)

/-- Modelled from the spec:
`pixel = round(normalized / 1000 * screenDimension)` — the rounding
conversion the specification states, for comparison with the code's
truncating conversion. -/
def specRoundPixel (n dim : Int) : Int := round ((n : ℚ) / 1000 * (dim : ℚ))

/-! ## Device driver model and the action executor

`ActionHandler` (actions/handler.py) dispatches a parsed action dict to a
handler; handlers call the adb primitives (adb/device.py, adb/input.py).
Every primitive invocation is recorded in a trace of `DevCall`s; a
`DevOracle` fixes the device's current input method, the launch-success
predicate (`app_name in APP_PACKAGES`), and which primitive invocations
raise an exception. -/

inductive DevCall where
  | tapCall (x y : Int)
  | doubleTapCall (x y : Int)
  | longPressCall (x y : Int)
  | swipeCall (x1 y1 x2 y2 : Int)
  | backCall
  | homeCall
  | launchAppCall (app : String)
  | typeTextCall (t : String)
  | clearTextCall
  | imeGetCall
  | imeEnableCall (ime : String)
  | imeSetCall (ime : String)
  | takeoverHook
  deriving DecidableEq

structure DevOracle where
  ime : String
  launchOk : String → Bool
  raises : DevCall → Option String

/-- Embeds `ActionResult` (actions/handler.py). -/
structure ActionResult where
  success : Bool
  should_finish : Bool
  message : Option PyVal := Option.none
  requires_confirmation : Bool := false

abbrev ActDict := List (String × PyVal)

/-- A handler run: the device calls it performed and either its
`ActionResult` or the exception it raised. -/
abbrev HRes := List DevCall × Except String ActionResult

def pyTruthyOpt : Option PyVal → Bool
  | some v => pyTruthy v
  | Option.none => false

/-- Embeds `x == "s"` for a Python value that may be absent. -/
def isStrVal (v? : Option PyVal) (s : String) : Bool :=
  match v? with
  | some (.str t) => t == s
  | _ => false

def adbIme : String := "com.android.adbkeyboard/.AdbIME"

/-- Embeds `detect_and_set_adb_keyboard` (adb/input.py): read the current input
method, switch to the adb keyboard when it is not already active (enable
then set), send the warm-up empty broadcast, and return the original
input method identifier. -/
def detect_and_set_adb_keyboard (o : DevOracle) : List DevCall × Except String String :=
  match o.raises .imeGetCall with
  | some e => ([.imeGetCall], .error e)
  | Option.none =>
    let cur := o.ime
    let (cs1, r1) : List DevCall × Except String Unit :=
      if !(strContains cur adbIme) then
        match o.raises (.imeEnableCall adbIme) with
        | some e => ([.imeEnableCall adbIme], .error e)
        | Option.none =>
          match o.raises (.imeSetCall adbIme) with
          | some e => ([.imeEnableCall adbIme, .imeSetCall adbIme], .error e)
          | Option.none => ([.imeEnableCall adbIme, .imeSetCall adbIme], .ok ())
      else ([], .ok ())
    match r1 with
    | .error e => (.imeGetCall :: cs1, .error e)
    | .ok () =>
      match o.raises (.typeTextCall "") with
      | some e => (.imeGetCall :: (cs1 ++ [.typeTextCall ""]), .error e)
      | Option.none => (.imeGetCall :: (cs1 ++ [.typeTextCall ""]), .ok cur)

/-- Embeds `restore_keyboard` (adb/input.py): a no-op when the original input
method is empty or already the adb keyboard, else one `ime set`. -/
def restore_keyboard (o : DevOracle) (ime : String) : List DevCall × Except String Unit :=
  if ime == "" || strContains ime "com.android.adbkeyboard" then ([], .ok ())
  else
    match o.raises (.imeSetCall ime) with
    | some e => ([.imeSetCall ime], .error e)
    | Option.none => ([.imeSetCall ime], .ok ())

/-- Embeds `_handle_type`: switch keyboard, clear, type, restore — written as a
plain sequence with no try/finally, exactly as in the source: an exception
at any step skips every later step. A non-string `text` raises inside
`type_text` before the broadcast is issued. -/
def _handle_type (o : DevOracle) (action : ActDict) : HRes :=
  let textV : Option String :=
    match dictGet action "text" with
    | Option.none => some ""
    | some (.str t) => some t
    | some _ => Option.none
  match detect_and_set_adb_keyboard o with
  | (cs, .error e) => (cs, .error e)
  | (cs, .ok originalIme) =>
    match o.raises .clearTextCall with
    | some e => (cs ++ [.clearTextCall], .error e)
    | Option.none =>
      match textV with
      | Option.none => (cs ++ [.clearTextCall], .error "argument must be str")
      | some t =>
        match o.raises (.typeTextCall t) with
        | some e => (cs ++ [.clearTextCall, .typeTextCall t], .error e)
        | Option.none =>
          match restore_keyboard o originalIme with
          | (cs2, .error e) => (cs ++ [.clearTextCall, .typeTextCall t] ++ cs2, .error e)
          | (cs2, .ok ()) =>
            (cs ++ [.clearTextCall, .typeTextCall t] ++ cs2,
             .ok ⟨true, false, Option.none, false⟩)

/-- Embeds `_handle_tap`: truthiness check on `element`, coordinate conversion,
sensitive-operation confirmation when a `message` key is present, then the
device tap. -/
def _handle_tap (o : DevOracle) (confirm : PyVal → Bool) (action : ActDict)
    (w h : Int) : HRes :=
  if !(pyTruthyOpt (dictGet action "element")) then
    ([], .ok ⟨false, false, some (.str "No element coordinates"), false⟩)
  else
    match _convert_relative_to_absolute (dictGetD action "element") w h with
    | .error e => ([], .error e)
    | .ok (x, y) =>
      let go : HRes :=
        match o.raises (.tapCall x y) with
        | some e => ([.tapCall x y], .error e)
        | Option.none => ([.tapCall x y], .ok ⟨true, false, Option.none, false⟩)
      if dictHasKey action "message" then
        if !(confirm (dictGetD action "message")) then
          ([], .ok ⟨false, true, some (.str "User cancelled sensitive operation"), false⟩)
        else go
      else go

def _handle_launch (o : DevOracle) (action : ActDict) : HRes :=
  let app? := dictGet action "app"
  if !(pyTruthyOpt app?) then
    ([], .ok ⟨false, false, some (.str "No app name specified"), false⟩)
  else
    match app? with
    | some (.str name) =>
      if o.launchOk name then
        match o.raises (.launchAppCall name) with
        | some e => ([.launchAppCall name], .error e)
        | Option.none => ([.launchAppCall name], .ok ⟨true, false, Option.none, false⟩)
      else ([], .ok ⟨false, false, some (.str ("App not found: " ++ name)), false⟩)
    | _ => ([], .ok ⟨false, false, some (.str ("App not found: " ++ pyShowOpt app?)), false⟩)

def _handle_swipe (o : DevOracle) (action : ActDict) (w h : Int) : HRes :=
  if !(pyTruthyOpt (dictGet action "start")) || !(pyTruthyOpt (dictGet action "end")) then
    ([], .ok ⟨false, false, some (.str "Missing coordinates"), false⟩)
  else
    match _convert_relative_to_absolute (dictGetD action "start") w h with
    | .error e => ([], .error e)
    | .ok (sx, sy) =>
      match _convert_relative_to_absolute (dictGetD action "end") w h with
      | .error e => ([], .error e)
      | .ok (ex, ey) =>
        match o.raises (.swipeCall sx sy ex ey) with
        | some e => ([.swipeCall sx sy ex ey], .error e)
        | Option.none => ([.swipeCall sx sy ex ey], .ok ⟨true, false, Option.none, false⟩)

def _handle_back (o : DevOracle) : HRes :=
  match o.raises .backCall with
  | some e => ([.backCall], .error e)
  | Option.none => ([.backCall], .ok ⟨true, false, Option.none, false⟩)

def _handle_home (o : DevOracle) : HRes :=
  match o.raises .homeCall with
  | some e => ([.homeCall], .error e)
  | Option.none => ([.homeCall], .ok ⟨true, false, Option.none, false⟩)

def _handle_double_tap (o : DevOracle) (action : ActDict) (w h : Int) : HRes :=
  if !(pyTruthyOpt (dictGet action "element")) then
    ([], .ok ⟨false, false, some (.str "No element"), false⟩)
  else
    match _convert_relative_to_absolute (dictGetD action "element") w h with
    | .error e => ([], .error e)
    | .ok (x, y) =>
      match o.raises (.doubleTapCall x y) with
      | some e => ([.doubleTapCall x y], .error e)
      | Option.none => ([.doubleTapCall x y], .ok ⟨true, false, Option.none, false⟩)

def _handle_long_press (o : DevOracle) (action : ActDict) (w h : Int) : HRes :=
  if !(pyTruthyOpt (dictGet action "element")) then
    ([], .ok ⟨false, false, some (.str "No element"), false⟩)
  else
    match _convert_relative_to_absolute (dictGetD action "element") w h with
    | .error e => ([], .error e)
    | .ok (x, y) =>
      match o.raises (.longPressCall x y) with
      | some e => ([.longPressCall x y], .error e)
      | Option.none => ([.longPressCall x y], .ok ⟨true, false, Option.none, false⟩)

/-- Embeds `_handle_wait`: the duration parse is wrapped in a bare `except`
defaulting to a one-second sleep, so the result never depends on the
action; sleeping is modelled as a no-op. -/
def _handle_wait : HRes := ([], .ok ⟨true, false, Option.none, false⟩)

/-- Embeds `_handle_takeover`: invokes the blocking takeover hook (with
`action.get("message", "Intervention required")`) and reports success;
an exception from the hook propagates. -/
def _handle_takeover (o : DevOracle) : HRes :=
  match o.raises .takeoverHook with
  | some e => ([.takeoverHook], .error e)
  | Option.none => ([.takeoverHook], .ok ⟨true, false, Option.none, false⟩)

def _handle_note : HRes := ([], .ok ⟨true, false, Option.none, false⟩)

def _handle_call_api : HRes := ([], .ok ⟨true, false, Option.none, false⟩)

def _handle_interact : HRes :=
  ([], .ok ⟨true, false, some (.str "Interaction required"), false⟩)

/-- The `_get_handler` lookup table applied to the action's name
(`handlers.get(action_name)` followed by the handler call). -/
def dispatchAction (o : DevOracle) (confirm : PyVal → Bool)
    (action : ActDict) (w h : Int) : Option HRes :=
  match dictGet action "action" with
  | some (.str name) =>
    if name = "Launch" then some (_handle_launch o action)
    else if name = "Tap" then some (_handle_tap o confirm action w h)
    else if name = "Type" then some (_handle_type o action)
    else if name = "Type_Name" then some (_handle_type o action)
    else if name = "Swipe" then some (_handle_swipe o action w h)
    else if name = "Back" then some (_handle_back o)
    else if name = "Home" then some (_handle_home o)
    else if name = "Double Tap" then some (_handle_double_tap o action w h)
    else if name = "Long Press" then some (_handle_long_press o action w h)
    else if name = "Wait" then some _handle_wait
    else if name = "Take_over" then some (_handle_takeover o)
    else if name = "Note" then some _handle_note
    else if name = "Call_API" then some _handle_call_api
    else if name = "Interact" then some _handle_interact
    else Option.none
  | _ => Option.none

/-- The tail of `ActionHandler.execute`: the unknown-name branch and the
try/except wrapper converting a handler exception into
`ActionResult(False, False, "Action failed: ...")`. -/
def wrapHRes (action : ActDict) : Option HRes → List DevCall × ActionResult
  | Option.none =>
    ([], ⟨false, false,
      some (.str ("Unknown action: " ++ pyShowOpt (dictGet action "action"))), false⟩)
  | some (calls, .error e) =>
    (calls, ⟨false, false, some (.str ("Action failed: " ++ e)), false⟩)
  | some (calls, .ok r) => (calls, r)

/-- Embeds `ActionHandler.execute` (actions/handler.py): the `finish` metadata
short-circuit, the unknown-metadata branch, then handler dispatch. -/
def ActionHandler.execute (o : DevOracle) (confirm : PyVal → Bool)
    (action : ActDict) (w h : Int) : List DevCall × ActionResult :=
  if isStrVal (dictGet action "_metadata") "finish" then
    ([], ⟨true, true, dictGet action "message", false⟩)
  else if !(isStrVal (dictGet action "_metadata") "do") then
    ([], ⟨false, true,
      some (.str ("Unknown action type: " ++ pyShowOpt (dictGet action "_metadata"))), false⟩)
  else
    wrapHRes action (dispatchAction o confirm action w h)

/-! ## Conversation context, the step engine and the run loop

`PhoneAgent._execute_step` / `PhoneAgent.run` (agent.py) with
`MessageBuilder` (model/client.py).  Perception (`get_screenshot` +
`get_current_app`) and inference (`ModelClient.request`) are the engine's
collaborators; a `StepIn` gives their outcome for one step, `error`
modelling a raised exception.  The executor collaborator is a function
`execF` that may raise; `ActionHandler.execute` never does, but the engine
guards the call with try/except regardless, and that guard is what claims
about execution faults exercise. -/

inductive MsgItem where
  | imageItem (url : String)
  | textItem (t : String)
  deriving DecidableEq

inductive MsgContent where
  | plain (s : String)
  | items (l : List MsgItem)
  deriving DecidableEq

structure Message where
  role : String
  content : MsgContent
  deriving DecidableEq

namespace MessageBuilder

def create_system_message (content : String) : Message :=
  ⟨"system", .plain content⟩

/-- Embeds `create_user_message`: image entry first (when the base64 payload is
truthy), then the text entry. -/
def create_user_message (text : String) (imageBase64 : Option String) : Message :=
  ⟨"user", .items
    ((match imageBase64 with
      | some b => if b == "" then [] else [MsgItem.imageItem ("data:image/png;base64," ++ b)]
      | Option.none => []) ++ [MsgItem.textItem text])⟩

def create_assistant_message (content : String) : Message :=
  ⟨"assistant", .plain content⟩

/-- Embeds `remove_images_from_message`: keep only the `"text"` entries of a
structured content list. -/
def remove_images_from_message (m : Message) : Message :=
  match m.content with
  | .items l =>
    ⟨m.role, .items (l.filter fun i => match i with | .textItem _ => true | _ => false)⟩
  | _ => m

/-- Embeds `build_screen_info`: `json.dumps(\x7b"current_app": app\x7d)`; the app names
produced by `get_current_app` contain no JSON-escaped characters. -/
def build_screen_info (currentApp : String) : String :=
  "\x7b\"current_app\": \"" ++ currentApp ++ "\"\x7d"

end MessageBuilder

/-- Embeds `Screenshot` (adb/screenshot.py), the fields the engine reads. -/
structure Screenshot where
  base64Data : String
  width : Int
  height : Int

/-- Embeds `ModelResponse`, the fields the engine reads. -/
structure ModelResponse where
  thinking : String
  action : String

structure AgentState where
  context : List Message
  stepCount : Nat

/-- Collaborator outcomes for one step. -/
structure StepIn where
  perception : Except String (Screenshot × String)
  model : Except String ModelResponse

/-- Embeds `StepResult` (agent.py). -/
structure StepResult where
  success : Bool
  finished : Bool
  action : Option ActDict
  thinking : String
  message : Option PyVal
  screenshot : Option Screenshot

/-- Embeds `finish(message=m)` as used by the engine for synthetic actions. -/
def finishDict (m : String) : ActDict :=
  [("message", .str m), ("_metadata", .str "finish")]

/-- Python `a or b` over optional values. -/
def pyOrOpt (a b : Option PyVal) : Option PyVal :=
  if pyTruthyOpt a then a else b

/-- Python `m or default` as used by `run`. -/
def pyOrDefault (m : Option PyVal) (d : String) : PyVal :=
  match m with
  | some v => if pyTruthy v then v else .str d
  | Option.none => .str d

/-- Embeds the image-stripping assignment `self._context[-1] = remove_images_from_message(self._context[-1])`. -/
def stripLastImage : List Message → List Message
  | [] => []
  | [m] => [MessageBuilder.remove_images_from_message m]
  | m :: rest => m :: stripLastImage rest

/-- Embeds `PhoneAgent._execute_step` (agent.py): increment the step counter,
capture perception (failure is terminal), build and append the user
message with the screenshot, call the model (failure is terminal, keeping
the screenshot), parse the action with the synthetic-Finish fallback,
strip the image from the last appended message, execute the action with
the synthetic-Finish execution fallback, append the assistant message, and
compute `finished`. -/
def _execute_step (systemPrompt : String) (inp : StepIn)
    (execF : ActDict → Except String ActionResult)
    (userPrompt : Option String) (isFirst : Bool) (st : AgentState) :
    Except String (StepResult × AgentState) :=
  let st1 : AgentState := { st with stepCount := st.stepCount + 1 }
  match inp.perception with
  | .error e =>
    .ok (⟨false, true, Option.none, "",
          some (.str ("Failed to capture screen or app info: " ++ e)), Option.none⟩, st1)
  | .ok (shot, currentApp) =>
    let screenInfo := MessageBuilder.build_screen_info currentApp
    let textContent :=
      if isFirst then
        (match userPrompt with | some t => t | Option.none => "None") ++ "\n\n" ++ screenInfo
      else "** Screen Info **\n\n" ++ screenInfo
    let ctx0 :=
      if isFirst then st1.context ++ [MessageBuilder.create_system_message systemPrompt]
      else st1.context
    let ctx1 := ctx0 ++ [MessageBuilder.create_user_message textContent (some shot.base64Data)]
    let st2 : AgentState := { st1 with context := ctx1 }
    match inp.model with
    | .error e =>
      .ok (⟨false, true, Option.none, "", some (.str ("Model error: " ++ e)), some shot⟩, st2)
    | .ok resp =>
      let action : ActDict :=
        match parse_action resp.action with
        | .ok a => a
        | .error _ => finishDict ("Failed to parse model action. Raw output: " ++ resp.action)
      let st3 : AgentState := { st2 with context := stripLastImage st2.context }
      let execOut : Except String ActionResult :=
        match execF action with
        | .ok r => .ok r
        | .error e => execF (finishDict ("Action execution failed: " ++ e))
      match execOut with
      | .error e2 => .error e2
      | .ok result =>
        let st4 : AgentState := { st3 with context := st3.context ++
          [MessageBuilder.create_assistant_message
            ("<think>" ++ resp.thinking ++ "</think><answer>" ++ resp.action ++ "</answer>")] }
        let finished := isStrVal (dictGet action "_metadata") "finish" || result.should_finish
        .ok (⟨result.success, finished, some action, resp.thinking,
              pyOrOpt result.message (dictGet action "message"), some shot⟩, st4)

/-- The `while self._step_count < self.agent_config.max_steps` loop of
`PhoneAgent.run`; the fuel argument is `maxSteps` at the call site, which
exceeds the number of remaining iterations, so the fuel-exhaustion branch
coincides with the loop-exit branch. -/
def runLoopAux (systemPrompt : String) (maxSteps : Nat) (steps : Nat → StepIn)
    (execF : ActDict → Except String ActionResult) :
    Nat → AgentState → Except String (PyVal × AgentState)
  | 0, st => .ok (.str "Max steps reached", st)
  | fuel + 1, st =>
    if st.stepCount < maxSteps then
      match _execute_step systemPrompt (steps st.stepCount) execF Option.none false st with
      | .error e => .error e
      | .ok (r, st2) =>
        if r.finished then .ok (pyOrDefault r.message "Task completed", st2)
        else runLoopAux systemPrompt maxSteps steps execF fuel st2
    else .ok (.str "Max steps reached", st)

/-- Embeds `PhoneAgent.run` (agent.py): reset, first step carrying the task, then
the loop bounded by the step budget.  The per-step collaborator outcomes
are indexed by the value of the step counter before the step. -/
def run (systemPrompt : String) (maxSteps : Nat) (steps : Nat → StepIn)
    (execF : ActDict → Except String ActionResult) (task : String) :
    Except String (PyVal × AgentState) :=
  let st0 : AgentState := ⟨[], 0⟩
  match _execute_step systemPrompt (steps 0) execF (some task) true st0 with
  | .error e => .error e
  | .ok (r, st1) =>
    if r.finished then .ok (pyOrDefault r.message "Task completed", st1)
    else runLoopAux systemPrompt maxSteps steps execF maxSteps st1

/-! ### Context observables used by the invariant claims -/

def msgImageCount (m : Message) : Nat :=
  match m.content with
  | .plain _ => 0
  | .items l => (l.filter fun i => match i with | .imageItem _ => true | _ => false).length

def imageCount (ctx : List Message) : Nat := (ctx.map msgImageCount).sum

/-- The most recently appended user-role message, if any. -/
def lastUserMsg : List Message → Option Message
  | [] => Option.none
  | m :: rest =>
    match lastUserMsg rest with
    | some u => some u
    | Option.none => if m.role == "user" then some m else Option.none

/-- The most recently appended user message carries no image payload
(vacuously true when there is none). -/
def lastUserMsgNoImage (ctx : List Message) : Bool :=
  match lastUserMsg ctx with
  | some u => msgImageCount u == 0
  | Option.none => true

/-- The condition under which `_handle_tap` cancels: a sensitive tap (a
`do`/`Tap` action with a usable element and a `message` key) whose
confirmation hook answers negatively. -/
def cancelledSensitiveTap (confirm : PyVal → Bool) (action : ActDict)
    (w h : Int) : Prop :=
  isStrVal (dictGet action "_metadata") "do" = true ∧
  isStrVal (dictGet action "action") "Tap" = true ∧
  pyTruthyOpt (dictGet action "element") = true ∧
  (∃ xy, _convert_relative_to_absolute (dictGetD action "element") w h = .ok xy) ∧
  dictHasKey action "message" = true ∧
  confirm (dictGetD action "message") = false

/-! ## Supporting lemmas -/

theorem containsSub_iff_isInfix {pat l : List Char} :
    containsSub pat l = true ↔ pat <:+: l := by
  induction l with
  | nil => simp [containsSub, List.isPrefixOf_iff_prefix, List.prefix_nil, List.infix_nil]
  | cons c cs ih =>
    simp only [containsSub, Bool.or_eq_true, List.isPrefixOf_iff_prefix, ih,
      List.infix_cons_iff]

theorem infix_dropWhile_iff (p : Char → Bool) (pat : List Char) (hne : pat ≠ [])
    (hpat : ∀ c ∈ pat, p c = false) (l : List Char) :
    pat <:+: l.dropWhile p ↔ pat <:+: l := by
  induction l with
  | nil => simp
  | cons c cs ih =>
    by_cases hc : p c
    · rw [List.dropWhile_cons_of_pos hc, ih, List.infix_cons_iff]
      constructor
      · exact Or.inr
      · rintro (hpre | hinf)
        · exfalso
          match pat, hne with
          | ph :: pt, _ =>
            have hhd : ph = c := (List.cons_prefix_cons.mp hpre).1
            have hph := hpat ph (List.mem_cons_self _ _)
            rw [hhd, hc] at hph
            exact Bool.noConfusion hph
        · exact hinf
    · rw [List.dropWhile_cons_of_neg hc]

theorem infix_strip_iff {pat : List Char} (hne : pat ≠ [])
    (hpat : ∀ c ∈ pat, isWsCh c = false) (l : List Char) :
    pat <:+: stripChars l ↔ pat <:+: l := by
  have hrev : ∀ m : List Char, (pat <:+: m.reverse) ↔ (pat.reverse <:+: m) := by
    intro m
    have := @List.reverse_infix Char pat.reverse m
    rwa [List.reverse_reverse] at this
  have hne2 : pat.reverse ≠ [] := by simpa using hne
  have hpat2 : ∀ c ∈ pat.reverse, isWsCh c = false := by
    intro c hc; exact hpat c (List.mem_reverse.mp hc)
  unfold stripChars
  rw [hrev, infix_dropWhile_iff isWsCh pat.reverse hne2 hpat2,
    List.reverse_infix, infix_dropWhile_iff isWsCh pat hne hpat]

theorem strContains_strip_finish (s : String) :
    strContains (pyStrip s) "finish" = strContains s "finish" := by
  rw [Bool.eq_iff_iff]
  show containsSub "finish".data (stripChars s.data) = true ↔
    containsSub "finish".data s.data = true
  rw [containsSub_iff_isInfix, containsSub_iff_isInfix]
  exact infix_strip_iff (by decide) (by decide) s.data

theorem pyInt_intCast (n : Int) : pyInt ((n : ℚ)) = n := by
  unfold pyInt
  split
  · exact Int.floor_intCast n
  · exact Int.ceil_intCast n

theorem isStrVal_iff (v? : Option PyVal) (s : String) :
    isStrVal v? s = true ↔ v? = some (.str s) := by
  rcases v? with _ | v
  · simp [isStrVal]
  · cases v <;> simp [isStrVal, beq_iff_eq]

theorem launch_sf (o : DevOracle) (action : ActDict) (calls : List DevCall) (r : ActionResult)
    (h : _handle_launch o action = (calls, .ok r)) : r.should_finish = false := by
  unfold _handle_launch at h
  try simp only [] at h
  repeat' split at h
  all_goals (injection h with h1 h2; first | (injection h2 with h3; subst h3; rfl) | injection h2)

theorem type_sf (o : DevOracle) (action : ActDict) (calls : List DevCall) (r : ActionResult)
    (h : _handle_type o action = (calls, .ok r)) : r.should_finish = false := by
  unfold _handle_type at h
  try simp only [] at h
  repeat' split at h
  all_goals (injection h with h1 h2; first | (injection h2 with h3; subst h3; rfl) | injection h2)

theorem swipe_sf (o : DevOracle) (action : ActDict) (w h : Int) (calls : List DevCall) (r : ActionResult)
    (hh : _handle_swipe o action w h = (calls, .ok r)) : r.should_finish = false := by
  unfold _handle_swipe at hh
  try simp only [] at hh
  repeat' split at hh
  all_goals (injection hh with h1 h2; first | (injection h2 with h3; subst h3; rfl) | injection h2)

theorem back_sf (o : DevOracle) (calls : List DevCall) (r : ActionResult)
    (h : _handle_back o = (calls, .ok r)) : r.should_finish = false := by
  unfold _handle_back at h
  repeat' split at h
  all_goals (injection h with h1 h2; first | (injection h2 with h3; subst h3; rfl) | injection h2)

theorem home_sf (o : DevOracle) (calls : List DevCall) (r : ActionResult)
    (h : _handle_home o = (calls, .ok r)) : r.should_finish = false := by
  unfold _handle_home at h
  repeat' split at h
  all_goals (injection h with h1 h2; first | (injection h2 with h3; subst h3; rfl) | injection h2)

theorem double_tap_sf (o : DevOracle) (action : ActDict) (w h : Int) (calls : List DevCall)
    (r : ActionResult)
    (hh : _handle_double_tap o action w h = (calls, .ok r)) : r.should_finish = false := by
  unfold _handle_double_tap at hh
  repeat' split at hh
  all_goals (injection hh with h1 h2; first | (injection h2 with h3; subst h3; rfl) | injection h2)

theorem long_press_sf (o : DevOracle) (action : ActDict) (w h : Int) (calls : List DevCall)
    (r : ActionResult)
    (hh : _handle_long_press o action w h = (calls, .ok r)) : r.should_finish = false := by
  unfold _handle_long_press at hh
  repeat' split at hh
  all_goals (injection hh with h1 h2; first | (injection h2 with h3; subst h3; rfl) | injection h2)

theorem wait_sf (calls : List DevCall) (r : ActionResult)
    (h : _handle_wait = (calls, .ok r)) : r.should_finish = false := by
  injection h with h1 h2; injection h2 with h3; subst h3; rfl

theorem takeover_sf (o : DevOracle) (calls : List DevCall) (r : ActionResult)
    (h : _handle_takeover o = (calls, .ok r)) : r.should_finish = false := by
  unfold _handle_takeover at h
  repeat' split at h
  all_goals (injection h with h1 h2; first | (injection h2 with h3; subst h3; rfl) | injection h2)

theorem note_sf (calls : List DevCall) (r : ActionResult)
    (h : _handle_note = (calls, .ok r)) : r.should_finish = false := by
  injection h with h1 h2; injection h2 with h3; subst h3; rfl

theorem call_api_sf (calls : List DevCall) (r : ActionResult)
    (h : _handle_call_api = (calls, .ok r)) : r.should_finish = false := by
  injection h with h1 h2; injection h2 with h3; subst h3; rfl

theorem interact_sf (calls : List DevCall) (r : ActionResult)
    (h : _handle_interact = (calls, .ok r)) : r.should_finish = false := by
  injection h with h1 h2; injection h2 with h3; subst h3; rfl

/-- A Tap handler run that returns normally reports `shouldFinish` exactly
when the sensitive-tap cancellation branch was taken. -/
theorem tap_sf_iff (o : DevOracle) (confirm : PyVal → Bool) (action : ActDict) (w h : Int)
    (calls : List DevCall) (r : ActionResult)
    (hh : _handle_tap o confirm action w h = (calls, .ok r)) :
    r.should_finish = true ↔
      (pyTruthyOpt (dictGet action "element") = true ∧
       (∃ xy, _convert_relative_to_absolute (dictGetD action "element") w h = .ok xy) ∧
       dictHasKey action "message" = true ∧
       confirm (dictGetD action "message") = false) := by
  unfold _handle_tap at hh
  try simp only [] at hh
  repeat' split at hh
  all_goals
    (injection hh with h1 h2
     first
       | (injection h2 with h3; subst h3; simp_all)
       | injection h2)

/-- Across the whole dispatch table, a normally-returning handler with
`shouldFinish = true` must be the Tap handler in its cancellation branch. -/
theorem dispatch_sf (o : DevOracle) (confirm : PyVal → Bool) (action : ActDict) (w h : Int)
    (calls : List DevCall) (r : ActionResult)
    (hd : dispatchAction o confirm action w h = some (calls, .ok r))
    (hsf : r.should_finish = true) :
    dictGet action "action" = some (.str "Tap") ∧
    pyTruthyOpt (dictGet action "element") = true ∧
    (∃ xy, _convert_relative_to_absolute (dictGetD action "element") w h = .ok xy) ∧
    dictHasKey action "message" = true ∧
    confirm (dictGetD action "message") = false := by
  unfold dispatchAction at hd
  rcases hga : dictGet action "action" with _ | v
  · rw [hga] at hd; exact Option.noConfusion hd
  rw [hga] at hd
  cases v
  case str t =>
    simp only [] at hd
    by_cases h1 : t = "Launch"
    · rw [if_pos h1] at hd; injection hd with hd2
      rw [launch_sf o action calls r hd2] at hsf; exact Bool.noConfusion hsf
    rw [if_neg h1] at hd
    by_cases h2 : t = "Tap"
    · rw [if_pos h2] at hd; injection hd with hd2
      subst h2
      exact ⟨rfl, (tap_sf_iff o confirm action w h calls r hd2).mp hsf⟩
    rw [if_neg h2] at hd
    by_cases h3 : t = "Type"
    · rw [if_pos h3] at hd; injection hd with hd2
      rw [type_sf o action calls r hd2] at hsf; exact Bool.noConfusion hsf
    rw [if_neg h3] at hd
    by_cases h4 : t = "Type_Name"
    · rw [if_pos h4] at hd; injection hd with hd2
      rw [type_sf o action calls r hd2] at hsf; exact Bool.noConfusion hsf
    rw [if_neg h4] at hd
    by_cases h5 : t = "Swipe"
    · rw [if_pos h5] at hd; injection hd with hd2
      rw [swipe_sf o action w h calls r hd2] at hsf; exact Bool.noConfusion hsf
    rw [if_neg h5] at hd
    by_cases h6 : t = "Back"
    · rw [if_pos h6] at hd; injection hd with hd2
      rw [back_sf o calls r hd2] at hsf; exact Bool.noConfusion hsf
    rw [if_neg h6] at hd
    by_cases h7 : t = "Home"
    · rw [if_pos h7] at hd; injection hd with hd2
      rw [home_sf o calls r hd2] at hsf; exact Bool.noConfusion hsf
    rw [if_neg h7] at hd
    by_cases h8 : t = "Double Tap"
    · rw [if_pos h8] at hd; injection hd with hd2
      rw [double_tap_sf o action w h calls r hd2] at hsf; exact Bool.noConfusion hsf
    rw [if_neg h8] at hd
    by_cases h9 : t = "Long Press"
    · rw [if_pos h9] at hd; injection hd with hd2
      rw [long_press_sf o action w h calls r hd2] at hsf; exact Bool.noConfusion hsf
    rw [if_neg h9] at hd
    by_cases h10 : t = "Wait"
    · rw [if_pos h10] at hd; injection hd with hd2
      rw [wait_sf calls r hd2] at hsf; exact Bool.noConfusion hsf
    rw [if_neg h10] at hd
    by_cases h11 : t = "Take_over"
    · rw [if_pos h11] at hd; injection hd with hd2
      rw [takeover_sf o calls r hd2] at hsf; exact Bool.noConfusion hsf
    rw [if_neg h11] at hd
    by_cases h12 : t = "Note"
    · rw [if_pos h12] at hd; injection hd with hd2
      rw [note_sf calls r hd2] at hsf; exact Bool.noConfusion hsf
    rw [if_neg h12] at hd
    by_cases h13 : t = "Call_API"
    · rw [if_pos h13] at hd; injection hd with hd2
      rw [call_api_sf calls r hd2] at hsf; exact Bool.noConfusion hsf
    rw [if_neg h13] at hd
    by_cases h14 : t = "Interact"
    · rw [if_pos h14] at hd; injection hd with hd2
      rw [interact_sf calls r hd2] at hsf; exact Bool.noConfusion hsf
    rw [if_neg h14] at hd
    exact Option.noConfusion hd
  all_goals exact Option.noConfusion hd

theorem str_append_ne_empty (a b : String) (ha : a.data ≠ []) :
    ((a ++ b) == "") = false := by
  rcases hb : (a ++ b) == "" with _ | _
  · rfl
  · exfalso
    have hEq : a ++ b = "" := by exact_mod_cast eq_of_beq hb
    have := congrArg String.data hEq
    rw [String.data_append] at this
    rcases List.append_eq_nil.mp this with ⟨h1, _⟩
    exact ha h1

theorem imageCount_append (a b : List Message) :
    imageCount (a ++ b) = imageCount a + imageCount b := by
  simp [imageCount]

theorem msgImageCount_system (s : String) :
    msgImageCount (MessageBuilder.create_system_message s) = 0 := rfl

theorem msgImageCount_assistant (s : String) :
    msgImageCount (MessageBuilder.create_assistant_message s) = 0 := rfl

theorem imageCount_singleton (m : Message) : imageCount [m] = msgImageCount m := by
  simp [imageCount]

theorem imageCount_cons (m : Message) (l : List Message) :
    imageCount (m :: l) = msgImageCount m + imageCount l := by
  simp [imageCount]

theorem imageCount_nil : imageCount [] = 0 := rfl

theorem msgImageCount_user_le (text b : String) :
    msgImageCount (MessageBuilder.create_user_message text (some b)) ≤ 1 := by
  unfold MessageBuilder.create_user_message msgImageCount
  by_cases hb : b = "" <;> simp [hb, List.filter]

/-- Stripping a message leaves no image entries. -/
theorem msgImageCount_strip (m : Message) :
    msgImageCount (MessageBuilder.remove_images_from_message m) = 0 := by
  rcases m with ⟨role, c⟩
  cases c with
  | plain s => rfl
  | items l =>
    show (List.filter (fun i => match i with | MsgItem.imageItem _ => true | _ => false)
        (List.filter (fun i => match i with | MsgItem.textItem _ => true | _ => false) l)).length = 0
    induction l with
    | nil => rfl
    | cons i rest ih =>
      cases i with
      | imageItem u =>
        rw [List.filter_cons_of_neg (by simp)]
        exact ih
      | textItem t =>
        rw [List.filter_cons_of_pos (by simp), List.filter_cons_of_neg (by simp)]
        exact ih

theorem stripLastImage_append (xs : List Message) (m : Message) :
    stripLastImage (xs ++ [m]) = xs ++ [MessageBuilder.remove_images_from_message m] := by
  induction xs with
  | nil => rfl
  | cons a rest ih =>
    rcases hxe : rest ++ [m] with _ | ⟨b, l2⟩
    · exact absurd hxe (by simp)
    · show stripLastImage (a :: (rest ++ [m])) = _
      rw [hxe]
      show a :: stripLastImage (b :: l2) = _
      rw [← hxe, ih]
      rfl

theorem lastUserMsg_append2 (xs : List Message) (u a : Message)
    (hu : (u.role == "user") = true) (ha : (a.role == "user") = false) :
    lastUserMsg (xs ++ [u, a]) = some u := by
  induction xs with
  | nil =>
    show lastUserMsg [u, a] = some u
    unfold lastUserMsg
    unfold lastUserMsg
    unfold lastUserMsg
    rw [ha, hu]
    rfl
  | cons m0 rest ih =>
    show lastUserMsg (m0 :: (rest ++ [u, a])) = some u
    unfold lastUserMsg
    rw [ih]

theorem lastUserMsg_append2x (xs : List Message) (u a : Message)
    (hu : (u.role == "user") = true) (ha : (a.role == "user") = false) :
    lastUserMsg ((xs ++ [u]) ++ [a]) = some u := by
  rw [List.append_assoc]
  exact lastUserMsg_append2 xs u a hu ha

/-- After a completed step, the last user message is the stripped one just
appended (the trailing assistant message is skipped). -/
theorem lastUserMsg_step (xs : List Message) (text : String) (b? : Option String)
    (asst : String) :
    lastUserMsg ((xs ++ [MessageBuilder.remove_images_from_message
        (MessageBuilder.create_user_message text b?)]) ++
      [MessageBuilder.create_assistant_message asst]) =
      some (MessageBuilder.remove_images_from_message
        (MessageBuilder.create_user_message text b?)) :=
  lastUserMsg_append2x _ _ _ rfl rfl

/-- Every exit of `_execute_step` increments the step counter exactly
once. -/
theorem execute_step_count (sp : String) (inp : StepIn)
    (execF : ActDict → Except String ActionResult) (up : Option String) (first : Bool)
    (st : AgentState) (r : StepResult) (st2 : AgentState)
    (h : _execute_step sp inp execF up first st = .ok (r, st2)) :
    st2.stepCount = st.stepCount + 1 := by
  unfold _execute_step at h
  try simp only [] at h
  repeat' split at h
  all_goals
    first
    | exact absurd h (fun hcon => Except.noConfusion hcon)
    | (injection h with h2; injection h2 with hr hst; subst hst; rfl)

theorem runLoopAux_succ (sp : String) (maxSteps : Nat) (steps : Nat → StepIn)
    (execF : ActDict → Except String ActionResult) (fuel : Nat) (st : AgentState) :
    runLoopAux sp maxSteps steps execF (fuel + 1) st =
      if st.stepCount < maxSteps then
        match _execute_step sp (steps st.stepCount) execF Option.none false st with
        | .error e => .error e
        | .ok (r, st2) =>
          if r.finished then .ok (pyOrDefault r.message "Task completed", st2)
          else runLoopAux sp maxSteps steps execF fuel st2
      else .ok (.str "Max steps reached", st) := rfl

/-! ## Claim theorems -/

/-- C5: the raw completion
`blah <think>...</think><answer>do(action="Tap", element=[100,200])</answer>`
is extracted to the action expression `do(action="Tap", element=[100,200])`
and parses to exactly the Tap action with element `[100, 200]`. -/
theorem C5_parse_tap_example :
    extractAction "blah <think>...</think><answer>do(action=\"Tap\", element=[100,200])</answer>" =
      "do(action=\"Tap\", element=[100,200])" ∧
    parse_action (extractAction
        "blah <think>...</think><answer>do(action=\"Tap\", element=[100,200])</answer>") =
      .ok [("action", .str "Tap"), ("element", .list [.int 100, .int 200]),
           ("_metadata", .str "do")] :=
  ⟨rfl, rfl⟩

/-- C1: `parse_action` does not evaluate under a restricted call grammar:
the response `(lambda: \x7b"_metadata": "do", "action": "Tap"\x7d)()`
executes a user-constructed lambda during parsing — the trace records a
closure invocation, which is neither `do` nor `finish` — and its return
value is accepted as an ordinary action dict.  (A lambda whose body names
`do` instead raises, because function bodies resolve free names through
the gutted globals, so that input falls into the except branch; the final
conjunct records this behaviour of the embedding.) -/
theorem C1_eval_invokes_arbitrary_callable :
    parse_action "(lambda: \x7b\"_metadata\": \"do\", \"action\": \"Tap\"\x7d)()" =
      .ok [("_metadata", .str "do"), ("action", .str "Tap")] ∧
    evalCallTrace "(lambda: \x7b\"_metadata\": \"do\", \"action\": \"Tap\"\x7d)()" =
      some [CallEvent.closureCall] ∧
    (∀ b, CallEvent.closureCall ≠ CallEvent.builtinCall b) ∧
    parse_action "(lambda: do(action=\"Tap\"))()" =
      .error ("Parse failed: " ++ "NoneType object is not subscriptable") :=
  ⟨rfl, rfl, fun _b h => CallEvent.noConfusion h, rfl⟩

/-- C6: whenever the evaluation attempt on the stripped response fails,
`parse_action` synthesizes `Finish(message="Task Completed")` exactly when
the literal word "finish" occurs in the text, and raises `ParseError`
(`ValueError`) exactly otherwise. -/
theorem C6_finish_fallback (s e : String)
    (h : evalAttempt (pyStrip s) = .error e) :
    (strContains s "finish" = true →
      parse_action s = .ok [("_metadata", .str "finish"), ("message", .str "Task Completed")]) ∧
    (strContains s "finish" = false →
      parse_action s = .error ("Parse failed: " ++ e)) := by
  unfold parse_action
  simp only [h, strContains_strip_finish]
  constructor
  · intro hf
    rw [hf]
    simp
  · intro hf
    rw [hf]
    simp

/-- Witness for C6 at two concrete responses on which evaluation fails:
one containing the word "finish", one not. -/
theorem C6_finish_fallback_witness :
    parse_action "cannot finish this" =
      .ok [("_metadata", .str "finish"), ("message", .str "Task Completed")] ∧
    parse_action "hello world" = .error ("Parse failed: " ++ "invalid syntax") :=
  ⟨(C6_finish_fallback "cannot finish this" "invalid syntax" rfl).1 rfl,
   (C6_finish_fallback "hello world" "invalid syntax" rfl).2 rfl⟩

/-- C9: evaluating `_handle_type` (through the executor) at a failing
input: the original input method is a Samsung keyboard and the typing
broadcast raises.  The executor reports `Action failed`, and the device
trace shows the keyboard was switched to the adb keyboard but the original
input method is never restored — the restore step is skipped when typing
fails, because `_handle_type` has no try/finally. -/
theorem C9_no_restore_when_type_raises :
    ActionHandler.execute
        ⟨"com.samsung.android.honeyboard/.service.HoneyBoardService",
         fun _ => false,
         fun c => match c with
           | .typeTextCall "hello" => some "broadcast failed"
           | _ => Option.none⟩
        (fun _ => true)
        [("_metadata", .str "do"), ("action", .str "Type"), ("text", .str "hello")]
        720 1604 =
      ([.imeGetCall, .imeEnableCall adbIme, .imeSetCall adbIme, .typeTextCall "",
        .clearTextCall, .typeTextCall "hello"],
       ⟨false, false, some (.str ("Action failed: broadcast failed")), false⟩) ∧
    DevCall.imeSetCall "com.samsung.android.honeyboard/.service.HoneyBoardService" ∉
      ([.imeGetCall, .imeEnableCall adbIme, .imeSetCall adbIme, .typeTextCall "",
        .clearTextCall, .typeTextCall "hello"] : List DevCall) :=
  ⟨rfl, by decide⟩

/-- Counterexample to C3: an action whose metadata tag is neither `do` nor
`finish` (here `"bogus"`) is not a Finish action and is not a Tap at all,
yet the executor returns `shouldFinish = true` — a second path by which a
non-Finish action terminates the run. -/
theorem C3_unknown_metadata_counterexample :
    (ActionHandler.execute ⟨"", fun _ => false, fun _ => Option.none⟩ (fun _ => true)
        [("_metadata", .str "bogus")] 720 1604).2.should_finish = true ∧
    isStrVal (dictGet [("_metadata", PyVal.str "bogus")] "_metadata") "finish" = false ∧
    dictGet [("_metadata", PyVal.str "bogus")] "action" = Option.none :=
  ⟨rfl, rfl, rfl⟩

/-- C2: for every Tap action (do metadata, Tap name, a usable coordinate
element) carrying a `message` field, when the confirmation hook returns
false the executor returns success=false and shouldFinish=true, performs
no device call at all, and in particular never invokes the tap
primitive. -/
theorem C2_cancelled_tap_never_taps
    (o : DevOracle) (confirm : PyVal → Bool) (action : ActDict) (w h : Int)
    (x y : Int)
    (hmd : dictGet action "_metadata" = some (.str "do"))
    (hname : dictGet action "action" = some (.str "Tap"))
    (htruthy : pyTruthyOpt (dictGet action "element") = true)
    (hconv : _convert_relative_to_absolute (dictGetD action "element") w h = .ok (x, y))
    (hkey : dictHasKey action "message" = true)
    (hconfirm : confirm (dictGetD action "message") = false) :
    ActionHandler.execute o confirm action w h =
      ([], ⟨false, true, some (.str "User cancelled sensitive operation"), false⟩) ∧
    ∀ a b, DevCall.tapCall a b ∉ (ActionHandler.execute o confirm action w h).1 := by
  have htap : _handle_tap o confirm action w h =
      ([], .ok ⟨false, true, some (.str "User cancelled sensitive operation"), false⟩) := by
    unfold _handle_tap
    rw [htruthy, hconv, hkey, hconfirm]
    rfl
  have hdis : dispatchAction o confirm action w h =
      some (_handle_tap o confirm action w h) := by
    unfold dispatchAction
    rw [hname]
    rfl
  have hexec : ActionHandler.execute o confirm action w h =
      ([], ⟨false, true, some (.str "User cancelled sensitive operation"), false⟩) := by
    unfold ActionHandler.execute
    rw [if_neg (by rw [hmd]; exact fun hcon => Bool.noConfusion hcon)]
    rw [if_neg (by rw [hmd]; exact fun hcon => Bool.noConfusion hcon)]
    rw [hdis, htap]
    rfl
  refine ⟨hexec, ?_⟩
  rw [hexec]
  intro a b
  simp

/-- Witness for C2 at a concrete sensitive tap with element `[0, 0]` and a
constant-false confirmation hook. -/
theorem C2_cancelled_tap_never_taps_witness :
    ActionHandler.execute ⟨"", fun _ => false, fun _ => Option.none⟩ (fun _ => false)
        [("_metadata", .str "do"), ("action", .str "Tap"),
         ("element", .list [.int 0, .int 0]), ("message", .str "pay the bill")]
        720 1604 =
      ([], ⟨false, true, some (.str "User cancelled sensitive operation"), false⟩) ∧
    ∀ a b, DevCall.tapCall a b ∉
      (ActionHandler.execute ⟨"", fun _ => false, fun _ => Option.none⟩ (fun _ => false)
        [("_metadata", .str "do"), ("action", .str "Tap"),
         ("element", .list [.int 0, .int 0]), ("message", .str "pay the bill")]
        720 1604).1 :=
  C2_cancelled_tap_never_taps _ _ _ 720 1604 0 0 rfl rfl rfl rfl rfl rfl

/-- C3 (amended): for every action whose metadata tag is not `finish`, the
executor reports shouldFinish=true exactly when either the metadata tag is
not `do` (the unknown-action-type branch) or the action is a sensitive Tap
whose confirmation hook returned false. -/
theorem C3_nonfinish_should_finish_iff
    (o : DevOracle) (confirm : PyVal → Bool) (action : ActDict) (w h : Int)
    (hnf : isStrVal (dictGet action "_metadata") "finish" = false) :
    ((ActionHandler.execute o confirm action w h).2.should_finish = true ↔
      (isStrVal (dictGet action "_metadata") "do" = false ∨
       cancelledSensitiveTap confirm action w h)) := by
  by_cases hdo : isStrVal (dictGet action "_metadata") "do" = true
  · have hred : ActionHandler.execute o confirm action w h =
        wrapHRes action (dispatchAction o confirm action w h) := by
      unfold ActionHandler.execute
      rw [if_neg (by rw [hnf]; exact fun hcon => Bool.noConfusion hcon)]
      rw [if_neg (by rw [hdo]; simp)]
    rw [hred]
    constructor
    · intro hsf
      rcases hdis : dispatchAction o confirm action w h with _ | ⟨calls, exc⟩
      · rw [hdis] at hsf; exact absurd hsf (by simp [wrapHRes])
      rcases exc with e | rr
      · rw [hdis] at hsf; exact absurd hsf (by simp [wrapHRes])
      · rw [hdis] at hsf
        have hrr : (wrapHRes action (some (calls, .ok rr))).2.should_finish =
            rr.should_finish := rfl
        rw [hrr] at hsf
        have hc := dispatch_sf o confirm action w h calls rr hdis hsf
        exact Or.inr ⟨hdo, (isStrVal_iff _ _).mpr hc.1, hc.2⟩
    · rintro (hfalse | hcan)
      · rw [hdo] at hfalse; exact Bool.noConfusion hfalse
      · obtain ⟨hcdo, hctap, htruthy, ⟨⟨x, y⟩, hconv⟩, hkey, hconfirm⟩ := hcan
        have hname : dictGet action "action" = some (.str "Tap") :=
          (isStrVal_iff _ _).mp hctap
        have htap : _handle_tap o confirm action w h =
            ([], .ok ⟨false, true, some (.str "User cancelled sensitive operation"), false⟩) := by
          unfold _handle_tap
          rw [htruthy, hconv, hkey, hconfirm]
          rfl
        have hdis : dispatchAction o confirm action w h =
            some (_handle_tap o confirm action w h) := by
          unfold dispatchAction
          rw [hname]
          rfl
        rw [hdis, htap]
        rfl
  · have hdo2 : isStrVal (dictGet action "_metadata") "do" = false := by
      rcases hb : isStrVal (dictGet action "_metadata") "do" with _ | _
      · rfl
      · exact absurd hb hdo
    have hred : ActionHandler.execute o confirm action w h =
        ([], ⟨false, true,
          some (.str ("Unknown action type: " ++ pyShowOpt (dictGet action "_metadata"))),
          false⟩) := by
      unfold ActionHandler.execute
      rw [if_neg (by rw [hnf]; exact fun hcon => Bool.noConfusion hcon)]
      rw [if_pos (by rw [hdo2]; rfl)]
    rw [hred]
    simp [hdo2]

/-- Witness for C3 (amended) at a concrete non-finish, non-Tap action
(`do`/`Note`): neither side of the characterization holds. -/
theorem C3_nonfinish_should_finish_iff_witness :
    ((ActionHandler.execute ⟨"", fun _ => false, fun _ => Option.none⟩ (fun _ => true)
        [("_metadata", .str "do"), ("action", .str "Note")] 720 1604).2.should_finish = true ↔
      (isStrVal (dictGet [("_metadata", PyVal.str "do"), ("action", PyVal.str "Note")]
          "_metadata") "do" = false ∨
       cancelledSensitiveTap (fun _ => true)
         [("_metadata", .str "do"), ("action", .str "Note")] 720 1604)) :=
  C3_nonfinish_should_finish_iff _ _ _ 720 1604 rfl

set_option maxRecDepth 100000

/-- Counterexample to C4: the code truncates (`int()`) rather than rounds:
for normalized 500 on a 3-pixel dimension the exact product is 1.5, the
code yields pixel 1, while the specified `round` formula yields 2. -/
theorem C4_trunc_ne_round :
    _convert_relative_to_absolute (.list [.int 500, .int 500]) 3 3 = .ok (1, 1) ∧
    specRoundPixel 500 3 = 2 ∧
    _convert_relative_to_absolute (.list [.int 500, .int 500]) 3 3 ≠
      .ok (specRoundPixel 500 3, specRoundPixel 500 3) := by
  have hconv : _convert_relative_to_absolute (.list [.int 500, .int 500]) 3 3 =
      .ok (1, 1) := rfl
  have hround : specRoundPixel 500 3 = 2 := by
    unfold specRoundPixel
    rw [round_eq]
    norm_num
  refine ⟨hconv, hround, ?_⟩
  intro hc
  rw [hconv, hround] at hc
  exact absurd (Except.ok.inj hc) (by decide)

/-- C4 (amended): for integer normalized coordinates the conversion is
`pixel = int(normalized / 1000.0 * screenDimension)` evaluated in IEEE-754
binary64, where `int()` truncates toward zero — not `round`; the cited
instance `[500, 500]` at `720 × 1604` yields `(360, 802)` (there the
binary64 products are the exact integers 360 and 802, so truncation and
rounding agree).  Binary64 also differs on-domain from exact-rational
truncation: normalized 175 at the device width 720 yields pixel 125,
while the exact product is the integer 126. -/
theorem C4_pixel_conversion (x y w h : Int) :
    _convert_relative_to_absolute (.list [.int x, .int y]) w h =
      .ok (codePixel (f64OfInt x) w, codePixel (f64OfInt y) h) ∧
    _convert_relative_to_absolute (.list [.int 500, .int 500]) 720 1604 =
      .ok (360, 802) ∧
    codePixel (f64OfInt 175) 720 = 125 ∧
    pyInt ((175 : ℚ) / 1000 * 720) = 126 := by
  refine ⟨rfl, rfl, rfl, ?_⟩
  rw [show ((175 : ℚ) / 1000 * 720) = ((126 : Int) : ℚ) by push_cast; norm_num,
    pyInt_intCast]

/-- Counterexample to C8: a step that fails at the model call returns
early without stripping the image from the just-appended user message:
after the step, the most recently appended user message still carries its
image payload. -/
theorem C8_model_error_keeps_image :
    ∃ st2, _execute_step "sys"
        ⟨.ok (⟨"IMGDATA", 720, 1604⟩, "Home"), .error "boom"⟩
        (fun _ => .ok ⟨true, false, Option.none, false⟩) (some "task") true ⟨[], 0⟩ =
      .ok (⟨false, true, Option.none, "", some (.str "Model error: boom"),
            some ⟨"IMGDATA", 720, 1604⟩⟩, st2) ∧
    lastUserMsgNoImage st2.context = false ∧
    imageCount st2.context = 1 :=
  ⟨_, rfl, rfl, rfl⟩

/-- C7: when perception and inference succeed, neither a parse failure nor
an exception raised by the executor propagates out of the step: on a parse
failure the engine substitutes the synthetic Finish action carrying the raw
unparsable text; on an execution exception it executes the fallback Finish
carrying the exception description; in both cases an `ActionResult` exists
and the returned `StepResult` has `finished = true`. -/
theorem C7_failures_absorbed (sp : String) (inp : StepIn)
    (execF : ActDict → Except String ActionResult)
    (up : Option String) (first : Bool) (st : AgentState)
    (shot : Screenshot) (app : String) (resp : ModelResponse)
    (hperc : inp.perception = .ok (shot, app))
    (hmodel : inp.model = .ok resp)
    (hfin : ∀ m, execF (finishDict m) = .ok ⟨true, true, some (.str m), false⟩) :
    (∀ err, parse_action resp.action = .error err →
      ∃ r st2, _execute_step sp inp execF up first st = .ok (r, st2) ∧
        r.finished = true ∧
        r.action = some (finishDict
          ("Failed to parse model action. Raw output: " ++ resp.action))) ∧
    (∀ a e, parse_action resp.action = .ok a → execF a = .error e →
      ∃ r st2, _execute_step sp inp execF up first st = .ok (r, st2) ∧
        r.finished = true ∧
        r.message = some (.str ("Action execution failed: " ++ e))) := by
  constructor
  · intro err hparse
    unfold _execute_step
    rw [hperc, hmodel]
    simp only []
    rw [hparse, hfin]
    exact ⟨_, _, rfl, rfl, rfl⟩
  · intro a e hparse hexec
    unfold _execute_step
    rw [hperc, hmodel]
    simp only []
    rw [hparse, hexec]
    simp only []
    rw [hfin]
    refine ⟨_, _, rfl, ?_, ?_⟩
    · exact Bool.or_true _
    · show pyOrOpt (some (.str ("Action execution failed: " ++ e))) (dictGet a "message") =
        some (.str ("Action execution failed: " ++ e))
      have hne := str_append_ne_empty "Action execution failed: " e (by decide)
      simp [pyOrOpt, pyTruthyOpt, pyTruthy, hne]

/-- Witness for C7 at a concrete step whose model output is unparsable and
whose executor raises on every non-finish action. -/
theorem C7_failures_absorbed_witness :
    ∃ r st2, _execute_step "sys"
        ⟨.ok (⟨"IMG", 720, 1604⟩, "Home"), .ok ⟨"thinking", "total garbage"⟩⟩
        (fun a => if isStrVal (dictGet a "_metadata") "finish" then
            .ok ⟨true, true, dictGet a "message", false⟩
          else .error "device fault")
        (some "task") true ⟨[], 0⟩ = .ok (r, st2) ∧
      r.finished = true ∧
      r.action = some (finishDict
        ("Failed to parse model action. Raw output: " ++ "total garbage")) :=
  (C7_failures_absorbed "sys" _ _ (some "task") true ⟨[], 0⟩
      ⟨"IMG", 720, 1604⟩ "Home" ⟨"thinking", "total garbage"⟩ rfl rfl
      (fun _m => rfl)).1 "Parse failed: invalid syntax" rfl

/-- C8 (amended): starting from an image-free context, after any step the
context holds at most one image; when both perception and inference
succeeded the just-appended user message has been stripped (text retained,
no image) and the context is image-free again.  A step that fails at the
model call is terminal but leaves the captured image in the context, which
is why the hypothesis on the inference outcome is required. -/
theorem C8_image_hygiene
    (sp : String) (inp : StepIn) (execF : ActDict → Except String ActionResult)
    (up : Option String) (first : Bool) (st : AgentState)
    (r : StepResult) (st2 : AgentState)
    (h0 : imageCount st.context = 0)
    (hstep : _execute_step sp inp execF up first st = .ok (r, st2)) :
    imageCount st2.context ≤ 1 ∧
    (∀ p resp, inp.perception = .ok p → inp.model = .ok resp →
      imageCount st2.context = 0 ∧ lastUserMsgNoImage st2.context = true) := by
  have hctx0 : imageCount (if first = true then
      st.context ++ [MessageBuilder.create_system_message sp] else st.context) = 0 := by
    cases first
    · simpa using h0
    · show imageCount (st.context ++ [MessageBuilder.create_system_message sp]) = 0
      rw [imageCount_append, h0]
      rfl
  unfold _execute_step at hstep
  rcases hperc : inp.perception with e | ⟨shot, app⟩
  · rw [hperc] at hstep
    injection hstep with h2
    injection h2 with hr hst
    subst hst
    constructor
    · show imageCount st.context ≤ 1
      rw [h0]; exact Nat.zero_le 1
    · intro p resp hp hm; exact Except.noConfusion hp
  · rw [hperc] at hstep
    rcases hmodel : inp.model with e | resp
    · rw [hmodel] at hstep
      injection hstep with h2
      injection h2 with hr hst
      subst hst
      constructor
      · show imageCount ((if first = true then
            st.context ++ [MessageBuilder.create_system_message sp] else st.context) ++
            [MessageBuilder.create_user_message _ (some shot.base64Data)]) ≤ 1
        rw [imageCount_append, hctx0]
        simpa [imageCount] using msgImageCount_user_le _ shot.base64Data
      · intro p resp hp hm; exact Except.noConfusion hm
    · rw [hmodel] at hstep
      simp only [] at hstep
      repeat' split at hstep
      all_goals
        first
        | exact absurd hstep (fun hcon => Except.noConfusion hcon)
        | (injection hstep with h2
           injection h2 with hr hst
           refine ⟨?_, fun p resp2 hp hm2 => ⟨?_, ?_⟩⟩
           · rw [← hst, stripLastImage_append]
             simp [imageCount_append, imageCount_cons, imageCount_nil,
                   msgImageCount_strip, msgImageCount_assistant, msgImageCount_system, h0]
           · rw [← hst, stripLastImage_append]
             simp [imageCount_append, imageCount_cons, imageCount_nil,
                   msgImageCount_strip, msgImageCount_assistant, msgImageCount_system, h0]
           · rw [← hst, stripLastImage_append]
             unfold lastUserMsgNoImage
             rw [lastUserMsg_step]
             simp [msgImageCount_strip])

/-- Witness for C8 (amended) at a concrete successful step. -/
theorem C8_image_hygiene_witness :
    ∃ r st2, (_execute_step "sys"
        ⟨.ok (⟨"IMG", 720, 1604⟩, "Home"), .ok ⟨"th", "do(action=\"Note\")"⟩⟩
        (fun _ => .ok ⟨true, false, Option.none, false⟩) (some "task") true ⟨[], 0⟩ =
      .ok (r, st2)) ∧
      (imageCount st2.context ≤ 1 ∧
       (∀ p resp,
         (⟨.ok (⟨"IMG", 720, 1604⟩, "Home"),
           .ok ⟨"th", "do(action=\"Note\")"⟩⟩ : StepIn).perception = .ok p →
         (⟨.ok (⟨"IMG", 720, 1604⟩, "Home"),
           .ok ⟨"th", "do(action=\"Note\")"⟩⟩ : StepIn).model = .ok resp →
         imageCount st2.context = 0 ∧ lastUserMsgNoImage st2.context = true)) :=
  ⟨_, _, rfl,
   C8_image_hygiene "sys"
     ⟨.ok (⟨"IMG", 720, 1604⟩, "Home"), .ok ⟨"th", "do(action=\"Note\")"⟩⟩
     (fun _ => .ok ⟨true, false, Option.none, false⟩)
     (some "task") true ⟨[], 0⟩ _ _ rfl rfl⟩

/-- C10: with a step budget of 3 and collaborators whose steps never
finish, the run performs exactly 3 steps and returns the budget-exhausted
sentinel "Max steps reached" rather than an error. -/
theorem C10_max_steps_budget (sp : String) (steps : Nat → StepIn)
    (execF : ActDict → Except String ActionResult) (task : String)
    (hfirst : ∃ r st1, _execute_step sp (steps 0) execF (some task) true ⟨[], 0⟩ =
      .ok (r, st1) ∧ r.finished = false)
    (hrest : ∀ i (st : AgentState), ∃ r st2,
      _execute_step sp (steps i) execF Option.none false st = .ok (r, st2) ∧
        r.finished = false) :
    ∃ stF, run sp 3 steps execF task = .ok (.str "Max steps reached", stF) ∧
      stF.stepCount = 3 := by
  obtain ⟨r1, st1, heq1, hf1⟩ := hfirst
  have hc1 : st1.stepCount = 1 := execute_step_count _ _ _ _ _ _ _ _ heq1
  obtain ⟨r2, st2, heq2, hf2⟩ := hrest st1.stepCount st1
  have hc2 : st2.stepCount = 2 := by
    rw [execute_step_count _ _ _ _ _ _ _ _ heq2, hc1]
  obtain ⟨r3, st3, heq3, hf3⟩ := hrest st2.stepCount st2
  have hc3 : st3.stepCount = 3 := by
    rw [execute_step_count _ _ _ _ _ _ _ _ heq3, hc2]
  have hL1 : runLoopAux sp 3 steps execF 3 st1 = runLoopAux sp 3 steps execF 2 st2 := by
    have h := runLoopAux_succ sp 3 steps execF 2 st1
    rw [if_pos (show st1.stepCount < 3 by rw [hc1]; decide), heq2] at h
    simp only [hf2] at h
    exact h
  have hL2 : runLoopAux sp 3 steps execF 2 st2 = runLoopAux sp 3 steps execF 1 st3 := by
    have h := runLoopAux_succ sp 3 steps execF 1 st2
    rw [if_pos (show st2.stepCount < 3 by rw [hc2]; decide), heq3] at h
    simp only [hf3] at h
    exact h
  have hL3 : runLoopAux sp 3 steps execF 1 st3 = .ok (.str "Max steps reached", st3) := by
    have h := runLoopAux_succ sp 3 steps execF 0 st3
    rw [if_neg (show ¬ st3.stepCount < 3 by rw [hc3]; decide)] at h
    exact h
  refine ⟨st3, ?_, hc3⟩
  unfold run
  simp only []
  rw [heq1]
  simp only [hf1]
  rw [hL1, hL2, hL3]
  rfl

/-- Witness for C10 at a concrete run whose model always answers with a
non-finishing Note action. -/
theorem C10_max_steps_budget_witness :
    ∃ stF, run "sys" 3
        (fun _ => ⟨.ok (⟨"IMG", 720, 1604⟩, "Home"), .ok ⟨"th", "do(action=\"Note\")"⟩⟩)
        (fun _ => .ok ⟨true, false, Option.none, false⟩) "task" =
      .ok (.str "Max steps reached", stF) ∧ stF.stepCount = 3 :=
  C10_max_steps_budget "sys" _ _ "task" ⟨_, _, rfl, rfl⟩ (fun _i _st => ⟨_, _, rfl, rfl⟩)

end PhoneAgent
